import Mathlib

/-!
Verification of the mcp-browser-tools resource-lifecycle core.

The development shallowly embeds the repository's code:
* `src/src/browser/BrowserContextPool.js` — the bounded reusable context pool;
* `src/src/browser/BrowserInstanceManager.js` and the Go
  `internal/browser/BrowserInstanceManager` — engine lifecycle and the
  inactivity timer with its per-reset cancellation token;
* `src/internal/playwright_integration/playwright_integration.go` — the
  network-activity recorder and page helpers;
* `src/internal/summary_tool/summary_tool.go` — the page-summary
  orchestration and link extraction;
* `src/src/browser/NetworkRequestCapture` (in the JS sources) — the
  content-type-gated body capture.

Timestamps (`Date.now()` / `time.Now`) are passed in explicitly as `Nat`
milliseconds; browser contexts and pages are identified by `Nat` ids issued
by a counter; fallible external calls are driven by explicit success flags.
-/

/-! ## Rendering context pool (`BrowserContextPool.js`) -/

/-- Pool bookkeeping for one context: the JS object
`{ context, createdAt, lastUsed }`.  The context itself is identified by a
numeric id. -/
structure ContextInfo where
  ctx : Nat
  createdAt : Nat
  lastUsed : Nat
deriving DecidableEq, Repr

/-- State of `BrowserContextPool`: `pool` is the idle list (front =
`shift`/next to hand out, back = `push` target), `inUse` is the `Map`
keyed by `ContextInfo.ctx`, and `nextCtx` is the id the next
`createContext()` call will return. -/
structure BrowserContextPool where
  maxPoolSize : Nat
  idleTimeout : Nat
  pool : List ContextInfo
  inUse : List ContextInfo
  nextCtx : Nat
deriving DecidableEq, Repr

/-- The constructor: `this.maxPoolSize = options.maxPoolSize || 5` and
`this.idleTimeout = options.idleTimeout || 30000`.  A JS `0` (or absent
option) is falsy, so it is replaced by the default. -/
def mkBrowserContextPool (maxPoolSizeOpt idleTimeoutOpt : Nat) : BrowserContextPool :=
  { maxPoolSize := if maxPoolSizeOpt = 0 then 5 else maxPoolSizeOpt
    idleTimeout := if idleTimeoutOpt = 0 then 30000 else idleTimeoutOpt
    pool := []
    inUse := []
    nextCtx := 0 }

/-- `initialize({preCreateContexts})`: pre-creates
`min(preCreateContexts, maxPoolSize)` fresh contexts into the idle pool. -/
def poolStart (maxPoolSizeOpt idleTimeoutOpt preCreate now : Nat) : BrowserContextPool :=
  let st := mkBrowserContextPool maxPoolSizeOpt idleTimeoutOpt
  let k := min preCreate st.maxPoolSize
  { st with
      pool := (List.range k).map (fun i => { ctx := i, createdAt := now, lastUsed := now })
      nextCtx := k }

/-- `acquireContext()`.  Branch 1: non-empty idle pool — `shift` the front
entry, stamp `lastUsed`, move it into `inUse`.  Branch 2: pool empty and
`inUse.size < maxPoolSize` — create a fresh context and mark it in-use.
Branch 3: at capacity — the caller polls until the idle pool is non-empty;
the state is unchanged and the eventual completion is a later branch-1
acquire, so the blocked case returns `none`. -/
def acquireContext (st : BrowserContextPool) (now : Nat) :
    Option Nat × BrowserContextPool :=
  match st.pool with
  | info :: rest =>
      (some info.ctx,
        { st with pool := rest, inUse := { info with lastUsed := now } :: st.inUse })
  | [] =>
      if st.inUse.length < st.maxPoolSize then
        (some st.nextCtx,
          { st with
              inUse := { ctx := st.nextCtx, createdAt := now, lastUsed := now } :: st.inUse
              nextCtx := st.nextCtx + 1 })
      else
        (none, st)

/-- `releaseContext(context)`: only if the context is tracked in `inUse`
(`this.inUse.has(context)`) is it deleted from `inUse`, stamped with
`lastUsed = Date.now()` and `push`ed to the back of the idle pool;
otherwise the call is a no-op. -/
def releaseContext (st : BrowserContextPool) (c : Nat) (now : Nat) : BrowserContextPool :=
  match st.inUse.find? (fun i => i.ctx == c) with
  | some info =>
      { st with
          inUse := st.inUse.filter (fun i => !(i.ctx == c))
          pool := st.pool ++ [{ info with lastUsed := now }] }
  | none => st

/-- `cleanupIdleContexts()`: first loop collects the indices of idle-pool
entries with `now - lastUsed > idleTimeout`; second loop `splice`s them out
in reverse (descending) index order, closing each.  `inUse` is untouched. -/
def cleanupIdleContexts (st : BrowserContextPool) (now : Nat) : BrowserContextPool :=
  { st with
      pool := ((List.range st.pool.length).filter
          (fun i => decide (now - (st.pool.getD i ⟨0, 0, 0⟩).lastUsed > st.idleTimeout))).reverse.foldl
        (fun l i => l.eraseIdx i) st.pool }

/-- `drain()`: stops eviction, closes every idle and in-use context and
clears both collections. -/
def drainPool (st : BrowserContextPool) : BrowserContextPool :=
  { st with pool := [], inUse := [] }

/-- States reachable from an initialized pool by any interleaving of
acquire, release, idle-eviction and drain operations. -/
inductive PoolReach (start : BrowserContextPool) : BrowserContextPool → Prop
  | refl : PoolReach start start
  | acquire {st : BrowserContextPool} (now : Nat) :
      PoolReach start st → PoolReach start (acquireContext st now).2
  | release {st : BrowserContextPool} (c now : Nat) :
      PoolReach start st → PoolReach start (releaseContext st c now)
  | cleanup {st : BrowserContextPool} (now : Nat) :
      PoolReach start st → PoolReach start (cleanupIdleContexts st now)
  | drain {st : BrowserContextPool} :
      PoolReach start st → PoolReach start (drainPool st)

/-- The context ids tracked by the pool, idle entries first. -/
def poolIds (st : BrowserContextPool) : List Nat :=
  st.pool.map ContextInfo.ctx ++ st.inUse.map ContextInfo.ctx

/-- Inductive well-formedness of a pool state: no context id is tracked
twice, all ids were issued by the counter, and the total number of tracked
contexts never exceeds `maxPoolSize`. -/
def WFPool (st : BrowserContextPool) : Prop :=
  (poolIds st).Nodup ∧
  (∀ c ∈ poolIds st, c < st.nextCtx) ∧
  st.pool.length + st.inUse.length ≤ st.maxPoolSize

/-! ## Engine instance manager (Go `internal/browser`, JS `BrowserInstanceManager.js`) -/

/-- The Go `BrowserInstanceManager` configuration relevant to
`SetInactivityTimeout`: `inactivityTimeout` is a `time.Duration`
(a signed 64-bit count), modelled as `Int`. -/
structure GoBrowserInstanceManager where
  inactivityTimeout : Int
deriving DecidableEq, Repr

/-- Go `SetInactivityTimeout` (under the mutex): stores the given duration
unconditionally — there is no validation of the argument. -/
def goSetInactivityTimeout (bim : GoBrowserInstanceManager) (timeout : Int) :
    GoBrowserInstanceManager :=
  { bim with inactivityTimeout := timeout }

/-- The JS `BrowserInstanceManager` configuration relevant to
`setInactivityTimeout`. -/
structure JsBrowserInstanceManager where
  inactivityTimeout : Int
deriving DecidableEq, Repr

/-- JS `setInactivityTimeout(timeoutMs)`: throws for a negative (or
non-number) argument before touching the field, otherwise stores it.
(The subsequent conditional timer reset does not affect the stored
timeout and is omitted here.) -/
def jsSetInactivityTimeout (m : JsBrowserInstanceManager) (timeoutMs : Int) :
    Except String JsBrowserInstanceManager :=
  if timeoutMs < 0 then
    Except.error "Inactivity timeout must be a non-negative number."
  else
    Except.ok { m with inactivityTimeout := timeoutMs }

/-! ## Inactivity timer with per-reset cancellation token
(Go `BrowserInstanceManager.ResetInactivityTimer`)

`ResetInactivityTimer` stops the tracked `time.Timer`, cancels the current
`context.Context` token, and installs a fresh timer paired with a fresh
token; the fired function only shuts the engine down if its own token is
still the current one.  The model numbers tokens by a generation counter:
generation `g` is cancelled exactly when `g` is no longer the current
generation.  `pending` holds the scheduled timers `(fireAt, generation)`
that have neither fired nor been stopped; concurrency is modelled by
interleaving the atomic `reset` and `fire` actions, and `time.Timer.Stop`
missing an already-expired timer (its documented failure mode, the reason
the cancellation token exists) is modelled by the `stopOk` flag. -/

/-- State of the inactivity-timer mechanism. `fired` logs each executed
timer function as `(its generation, whether it performed the shutdown)`. -/
structure BIMTimer where
  timeout : Nat
  gen : Nat
  pending : List (Nat × Nat)
  fired : List (Nat × Bool)
deriving DecidableEq, Repr

/-- Fresh manager: no timer scheduled yet. -/
def mkTimer (timeout : Nat) : BIMTimer :=
  { timeout := timeout, gen := 0, pending := [], fired := [] }

/-- `ResetInactivityTimer`: stop the tracked (current-generation) timer —
which silently misses if that timer already expired (`stopOk = false`) —
cancel the current token, then schedule `time.AfterFunc(inactivityTimeout)`
with a fresh token. -/
def resetInactivityTimer (st : BIMTimer) (now : Nat) (stopOk : Bool) : BIMTimer :=
  { st with
      gen := st.gen + 1
      pending := (now + st.timeout, st.gen + 1)
        :: (if stopOk then st.pending.filter (fun t => !(t.2 == st.gen)) else st.pending) }

/-- The body of the `time.AfterFunc` closure: when a pending timer fires it
checks its captured `ctx.Done()`; a cancelled (non-current) generation does
nothing, the current generation performs `CloseBrowserInstance` (which in
turn stops the tracked timer and cancels the current token, modelled as a
generation bump). -/
def fireTimer (st : BIMTimer) (t : Nat × Nat) : BIMTimer :=
  if t ∈ st.pending then
    if t.2 == st.gen then
      { st with
          pending := st.pending.erase t
          gen := st.gen + 1
          fired := st.fired ++ [(t.2, true)] }
    else
      { st with
          pending := st.pending.erase t
          fired := st.fired ++ [(t.2, false)] }
  else st

/-- Number of shutdowns actually performed by fired timers. -/
def shutdownCount (st : BIMTimer) : Nat :=
  (st.fired.filter (fun f => f.2)).length

/-- Two resets in quick succession (at times `t1` then `t2`), in any
combination of `Stop` outcomes. -/
def doubleReset (T t1 t2 : Nat) (b1 b2 : Bool) : BIMTimer :=
  resetInactivityTimer (resetInactivityTimer (mkTimer T) t1 b1) t2 b2

/-! ## Network activity recorder (Go `SetupNetworkInterception`) -/

/-- Go `CapturedRequest`. Headers are modelled as an association list. -/
structure CapturedRequest where
  url : String
  method : String
  headers : List (String × String)
  body : String
deriving DecidableEq, Repr

/-- Go `CapturedResponse`. -/
structure CapturedResponse where
  status : Nat
  headers : List (String × String)
  body : String
deriving DecidableEq, Repr

/-- Go `CapturedNetworkActivity`: one request paired with its response. -/
structure CapturedNetworkActivity where
  request : CapturedRequest
  response : CapturedResponse
deriving DecidableEq, Repr

/-- One `page.On("response", ...)` event: the URL of its request, the
status and headers, and the outcome of `response.Body()` (`ok bytes` or a
read error). -/
structure RespEvent where
  url : String
  status : Nat
  headers : List (String × String)
  bodyResult : Except String String

/-- The Go response callback in `SetupNetworkInterception`: look up the
pending request by URL (drop the event if absent), build the
`CapturedResponse` — on `response.Body()` success the body is stored
unconditionally, with **no content-type check**; on failure a warning is
logged and the body stays `""` — append the activity, and delete the
pending entry. -/
def handleResponse (pendingRequests : List (String × CapturedRequest))
    (capturedNetworkData : List CapturedNetworkActivity) (ev : RespEvent) :
    List (String × CapturedRequest) × List CapturedNetworkActivity :=
  match pendingRequests.find? (fun p => p.1 == ev.url) with
  | none => (pendingRequests, capturedNetworkData)
  | some p =>
      (pendingRequests.filter (fun q => !(q.1 == ev.url)),
        capturedNetworkData
          ++ [{ request := p.2
                response :=
                  { status := ev.status
                    headers := ev.headers
                    body :=
                      match ev.bodyResult with
                      | Except.ok b => b
                      | Except.error _ => "" } }])

/-! ## JS `NetworkRequestCapture.safelyGetResponseBody` -/

/-- JS `String.prototype.includes`, on the underlying characters. -/
def containsSub (s sub : String) : Bool :=
  decide (List.IsInfix sub.toList s.toList)

/-- The content-type condition tested inside `safelyGetResponseBody`:
`contentType.includes('text/') || contentType.includes('application/json')
|| contentType.includes('application/xml')`. -/
def isTextLike (contentType : String) : Bool :=
  containsSub contentType "text/" || containsSub contentType "application/json"
    || containsSub contentType "application/xml"

/-- JS `safelyGetResponseBody(response)`: read the body only for a
text-like content-type (otherwise `''`); if `response.text()` throws,
return the placeholder error string. -/
def safelyGetResponseBody (contentType : String) (textResult : Except String String) :
    String :=
  if isTextLike contentType then
    match textResult with
    | Except.ok b => b
    | Except.error m => "[Error getting response body: " ++ m ++ "]"
  else ""

/-! ## Link extraction (Go `SummaryTool.extractLinks`)

`extractLinks` walks the parsed HTML tree in document (preorder) order; for
each `ElementNode` named `a` it takes the first `href` attribute, parses it
with `net/url`, resolves it against the base URL, and appends the resolved
string unless it was already collected (`visited` map — which always holds
exactly the collected links).  The fragment of `net/url` needed here
(scheme://host/path URLs and path-only relative references, RFC 3986
resolution) is modelled explicitly; query/fragment/userinfo/opaque forms
are outside the claims' scope. -/

/-- The `net/url` `URL` fields used by the claims. An empty `scheme` marks
a relative reference. -/
structure URLm where
  scheme : String
  host : String
  path : String
deriving DecidableEq, Repr

/-- Scan for `://`, accumulating the (reversed) scheme seen so far. -/
def splitOnScheme : List Char → List Char → Option (List Char × List Char)
  | pre, ':' :: '/' :: '/' :: rest => some (pre.reverse, rest)
  | pre, c :: rest => splitOnScheme (c :: pre) rest
  | _, [] => none

/-- Model of Go `url.Parse` on the fragment above. `url.Parse` returns an
error only for malformed inputs outside this fragment, so the model always
succeeds; the `Option` mirrors the `(*URL, error)` shape used at the call
sites. -/
def parseURL (s : String) : Option URLm :=
  match splitOnScheme [] s.toList with
  | some (sch, rest) =>
      some { scheme := String.mk sch
             host := String.mk (rest.takeWhile (fun c => c != '/'))
             path := String.mk (rest.dropWhile (fun c => c != '/')) }
  | none => some { scheme := "", host := "", path := s }

/-- Model of Go `(*URL).ResolveReference` (RFC 3986 §5.3) on the same
fragment: an absolute reference wins; a rooted path replaces the base
path; otherwise the reference is merged onto the base path's directory. -/
def resolveReference (base ref : URLm) : URLm :=
  if ref.scheme != "" then ref
  else if ref.path.toList.head? = some '/' then
    { scheme := base.scheme, host := base.host, path := ref.path }
  else
    { scheme := base.scheme
      host := base.host
      path := String.mk
        ((base.path.toList.reverse.dropWhile (fun c => c != '/')).reverse
          ++ ref.path.toList) }

/-- Model of Go `(*URL).String` on the same fragment. -/
def urlString (u : URLm) : String :=
  if u.scheme = "" then u.path else u.scheme ++ "://" ++ u.host ++ u.path

mutual
/-- Parsed markup, after `html.Parse`: element nodes with attributes and
children, text-like nodes, and the document root. -/
inductive HNode where
  | elem (tag : String) (attrs : List (String × String)) (children : HForest)
  | text (s : String)
  | doc (children : HForest)
inductive HForest where
  | nil
  | cons (hd : HNode) (tl : HForest)
end

/-- Build a forest from a list of nodes. -/
def ofForest : List HNode → HForest :=
  fun l => l.foldr HForest.cons HForest.nil

/-- The attribute scan in `extractLinks`: the loop takes the first
attribute with key `href` and `break`s. -/
def anchorHref (attrs : List (String × String)) : Option String :=
  (attrs.find? (fun a => a.1 == "href")).map (fun a => a.2)

/-- Appending one resolved link with duplicate suppression: the `visited`
map holds exactly the already-collected links, so the membership test is
`links.contains`. -/
def dedupStep (links : List String) (r : String) : List String :=
  if links.contains r then links else links ++ [r]

/-- Processing of one `<a>` element: first `href` attribute, `url.Parse`
(skip the link on parse failure), resolve, dedup-append. -/
def anchorStep (base : URLm) (attrs : List (String × String)) (links : List String) :
    List String :=
  match anchorHref attrs with
  | some v =>
      match parseURL v with
      | some pu => dedupStep links (urlString (resolveReference base pu))
      | none => links
  | none => links

mutual
/-- The recursive closure `f` of `extractLinks`: handle the node (only
element nodes named `a` contribute), then recurse into all children. -/
def collectNode (base : URLm) : HNode → List String → List String
  | HNode.text _, links => links
  | HNode.doc cs, links => collectForest base cs links
  | HNode.elem tag attrs cs, links =>
      collectForest base cs (if tag == "a" then anchorStep base attrs links else links)
/-- `f` applied to a sibling list, left to right. -/
def collectForest (base : URLm) : HForest → List String → List String
  | HForest.nil, links => links
  | HForest.cons c cs, links => collectForest base cs (collectNode base c links)
end

/-- Go `extractLinks(htmlContent, baseURL)`, starting from the parsed
document: parse the base URL (error out on failure), then run the
traversal with empty accumulators. -/
def extractLinks (docRoot : HNode) (baseURL : String) : Option (List String) :=
  match parseURL baseURL with
  | none => none
  | some base => some (collectNode base docRoot [])

/-- Specification-side helper: the resolved hrefs of a node in document
order, without duplicate suppression. -/
def anchorRaw (base : URLm) (attrs : List (String × String)) : List String :=
  match anchorHref attrs with
  | some v =>
      match parseURL v with
      | some pu => [urlString (resolveReference base pu)]
      | none => []
  | none => []

mutual
/-- All resolved hrefs below a node, in document order (with duplicates). -/
def rawNode (base : URLm) : HNode → List String
  | HNode.text _ => []
  | HNode.doc cs => rawForest base cs
  | HNode.elem tag attrs cs =>
      (if tag == "a" then anchorRaw base attrs else []) ++ rawForest base cs
/-- All resolved hrefs below a forest, in document order. -/
def rawForest (base : URLm) : HForest → List String
  | HForest.nil => []
  | HForest.cons c cs => rawNode base c ++ rawForest base cs
end

/-- Specification-side first-occurrence deduplication (`seen` accumulates
the kept values). -/
def dedupFirstAux (seen : List String) : List String → List String
  | [] => []
  | x :: xs =>
      if seen.contains x then dedupFirstAux seen xs
      else x :: dedupFirstAux (x :: seen) xs

/-- Keep the first occurrence of each value, in order. -/
def dedupFirst (l : List String) : List String := dedupFirstAux [] l

/-- The document of the spec's link-extraction example: anchors `/link1`,
`https://example.com/link2`, `link3.html`. -/
def exampleDoc : HNode :=
  HNode.doc (ofForest [HNode.elem "html" [] (ofForest [
    HNode.elem "body" [] (ofForest [
      HNode.elem "a" [("href", "/link1")] HForest.nil,
      HNode.elem "a" [("href", "https://example.com/link2")] HForest.nil,
      HNode.elem "a" [("href", "link3.html")] HForest.nil])])])

/-! ## Page-summary capture (Go `SummaryTool.CapturePageSummary`)

The Playwright effects of one capture are recorded in a trace: which page
ids were opened (`browser.NewPage`), closed (`page.Close`), had network
interception installed (`page.Route` + `page.On("response")`), and which
page navigated to which URL (`page.Goto`).  Failures of the external calls
are driven by explicit success flags. -/

/-- Trace of Playwright effects during one capture. -/
structure PWTrace where
  nextPage : Nat
  opened : List Nat
  closed : List Nat
  intercepted : List Nat
  navigated : List (Nat × String)
deriving DecidableEq, Repr

/-- The trace before any call. -/
def emptyTrace : PWTrace :=
  { nextPage := 0, opened := [], closed := [], intercepted := [], navigated := [] }

/-- Which external calls succeed during one `CapturePageSummary` run. -/
structure CaptureOracle where
  newPage1Ok : Bool
  setupOk : Bool
  newPage2Ok : Bool
  gotoOk : Bool
  contentOk : Bool
  screenshotOk : Bool
deriving DecidableEq, Repr

/-- `PlaywrightIntegration.NewPage`: obtain the browser and open a fresh
page.  (The fire-and-forget cancellation goroutine it spawns checks
`ctx.Done()` once, immediately, and is a no-op when the context is not
already cancelled; it contributes nothing to the traces considered here.) -/
def newPage (st : PWTrace) (ok : Bool) : Option Nat × PWTrace :=
  if ok then
    (some st.nextPage,
      { st with nextPage := st.nextPage + 1, opened := st.opened ++ [st.nextPage] })
  else (none, st)

/-- `page.Close()`. -/
def closePage (st : PWTrace) (p : Nat) : PWTrace :=
  { st with closed := st.closed ++ [p] }

/-- The effect of Go `SetupNetworkInterception(ctx, page)` on the trace:
install the route and response handlers on that page. -/
def setupNetworkInterception (st : PWTrace) (p : Nat) (ok : Bool) : Bool × PWTrace :=
  if ok then (true, { st with intercepted := st.intercepted ++ [p] })
  else (false, st)

/-- Go `PlaywrightIntegration.NavigateToURL`: creates a **new page** via
`NewPage`, then `page.Goto(url)`; on navigation failure it closes the page
it created and returns the error. -/
def navigateToURL (st : PWTrace) (url : String) (newPageOk gotoOk : Bool) :
    Option Nat × PWTrace :=
  match newPage st newPageOk with
  | (none, st1) => (none, st1)
  | (some p, st1) =>
      if gotoOk then
        (some p, { st1 with navigated := st1.navigated ++ [(p, url)] })
      else (none, closePage st1 p)

/-- Go `SummaryTool.CapturePageSummary`: open a page, `defer page.Close()`
(the deferred closure closes the **current value** of the `page` variable
at return), install interception on that page, then call `NavigateToURL`
— which opens a second page and rebinds `page` — and finally read content
and screenshot.  When `NavigateToURL` fails it returns a nil page, so the
deferred `page.Close()` is a method call on a nil interface (a runtime
panic in Go); the model records no close on that path. -/
def capturePageSummary (o : CaptureOracle) (url : String) (st0 : PWTrace) :
    Bool × PWTrace :=
  match newPage st0 o.newPage1Ok with
  | (none, st1) => (false, st1)
  | (some p1, st1) =>
      match setupNetworkInterception st1 p1 o.setupOk with
      | (false, st2) => (false, closePage st2 p1)
      | (true, st2) =>
          match navigateToURL st2 url o.newPage2Ok o.gotoOk with
          | (none, st3) => (false, st3)
          | (some p2, st3) =>
              if o.contentOk then
                if o.screenshotOk then (true, closePage st3 p2)
                else (false, closePage st3 p2)
              else (false, closePage st3 p2)

/-! ### Pool lemmas -/

/-- Erasing indices shifted by one from a cons leaves the head in place. -/
theorem foldl_eraseIdx_map_succ {α : Type} (is : List Nat) (a : α) :
    ∀ t : List α,
      (is.map (· + 1)).foldl (fun l i => l.eraseIdx i) (a :: t)
        = a :: is.foldl (fun l i => l.eraseIdx i) t := by
  induction is with
  | nil => intro t; rfl
  | cons i is ih => intro t; simpa using ih (t.eraseIdx i)

/-- Erasing the single index 0 from a cons drops the head. -/
theorem foldl_eraseIdx_zero {α : Type} (a : α) (t : List α) :
    List.foldl (fun l i => l.eraseIdx i) (a :: t) [0] = t := rfl

/-- The two-loop body of `cleanupIdleContexts` (collect matching indices,
then `splice` them out in descending order) is extensionally a `filter`. -/
theorem eraseIdxs_eq_filter (P : ContextInfo → Bool) :
    ∀ l : List ContextInfo,
      (((List.range l.length).filter (fun i => P (l.getD i ⟨0, 0, 0⟩))).reverse.foldl
          (fun acc i => acc.eraseIdx i) l)
        = l.filter (fun e => !(P e)) := by
  intro l
  induction l with
  | nil => rfl
  | cons a t ih =>
    have hq : (fun i => P ((a :: t).getD i ⟨0, 0, 0⟩)) ∘ (· + 1)
        = fun i => P (t.getD i ⟨0, 0, 0⟩) := by
      funext i; rfl
    cases hPa : P a with
    | true =>
      have hsplit :
          (List.range (a :: t).length).filter (fun i => P ((a :: t).getD i ⟨0, 0, 0⟩))
            = 0 :: ((List.range t.length).filter (fun i => P (t.getD i ⟨0, 0, 0⟩))).map (· + 1) := by
        rw [List.length_cons, List.range_succ_eq_map, List.filter_cons,
          List.filter_map, hq]
        simp [hPa]
      rw [hsplit, List.reverse_cons, ← List.map_reverse, List.foldl_append,
        foldl_eraseIdx_map_succ, foldl_eraseIdx_zero, ih]
      simp [List.filter_cons, hPa]
    | false =>
      have hsplit :
          (List.range (a :: t).length).filter (fun i => P ((a :: t).getD i ⟨0, 0, 0⟩))
            = ((List.range t.length).filter (fun i => P (t.getD i ⟨0, 0, 0⟩))).map (· + 1) := by
        rw [List.length_cons, List.range_succ_eq_map, List.filter_cons,
          List.filter_map, hq]
        simp [hPa]
      rw [hsplit, ← List.map_reverse, foldl_eraseIdx_map_succ, ih]
      simp [List.filter_cons, hPa]

/-- `cleanupIdleContexts` in closed form: the idle pool is filtered down to
the entries that are not past the idle timeout, everything else in the
state (in particular the in-use map) is untouched. -/
theorem cleanupIdleContexts_eq (st : BrowserContextPool) (now : Nat) :
    cleanupIdleContexts st now
      = { st with pool := st.pool.filter (fun e => !(decide (now - e.lastUsed > st.idleTimeout))) } := by
  unfold cleanupIdleContexts
  rw [eraseIdxs_eq_filter (fun e => decide (now - e.lastUsed > st.idleTimeout)) st.pool]

/-- `find?` splits its list at the first hit, with the predicate false on
everything before it. -/
theorem find?_decomp {α : Type} (p : α → Bool) :
    ∀ (l : List α) (a : α), l.find? p = some a →
      ∃ l1 l2, l = l1 ++ a :: l2 ∧ ∀ x ∈ l1, p x = false := by
  intro l
  induction l with
  | nil => intro a h; simp [List.find?] at h
  | cons b t ih =>
    intro a h
    by_cases hb : p b
    · rw [List.find?_cons_of_pos t hb] at h
      cases h
      exact ⟨[], t, rfl, by simp⟩
    · rw [List.find?_cons_of_neg t (by simpa using hb)] at h
      obtain ⟨l1, l2, rfl, h1⟩ := ih a h
      refine ⟨b :: l1, l2, rfl, ?_⟩
      intro x hx
      rcases List.mem_cons.mp hx with rfl | hx
      · simpa using hb
      · exact h1 x hx

/-- An initialized pool is well-formed: `initialize` pre-creates at most
`maxPoolSize` distinct fresh contexts. -/
theorem wfPool_poolStart (m i pre now : Nat) : WFPool (poolStart m i pre now) := by
  refine ⟨?_, ?_, ?_⟩
  · simp only [WFPool, poolStart, poolIds, mkBrowserContextPool, List.map_map,
      List.map_nil, List.append_nil]
    have : (ContextInfo.ctx ∘ fun j => ContextInfo.mk j now now) = id := rfl
    rw [this, List.map_id]
    exact List.nodup_range _
  · intro c hc
    simp only [poolStart, poolIds, mkBrowserContextPool, List.map_map,
      List.map_nil, List.append_nil] at hc ⊢
    have : (ContextInfo.ctx ∘ fun j => ContextInfo.mk j now now) = id := rfl
    rw [this, List.map_id] at hc
    exact List.mem_range.mp hc
  · simp only [poolStart, mkBrowserContextPool, List.length_map, List.length_range,
      List.length_nil]
    have h := Nat.min_le_right pre (if m = 0 then 5 else m)
    omega

/-- `acquireContext` preserves pool well-formedness. -/
theorem wfPool_acquire (st : BrowserContextPool) (now : Nat) (h : WFPool st) :
    WFPool (acquireContext st now).2 := by
  obtain ⟨hnd, hlt, hlen⟩ := h
  simp only [poolIds] at hnd hlt
  cases hp : st.pool with
  | cons info rest =>
    rw [hp] at hnd hlt hlen
    simp only [acquireContext, hp]
    refine ⟨?_, ?_, ?_⟩
    · simp only [poolIds, List.map_cons]
      have hnd' : (info.ctx :: (rest.map ContextInfo.ctx
          ++ st.inUse.map ContextInfo.ctx)).Nodup := by
        simpa using hnd
      exact List.perm_middle.symm.nodup hnd'
    · intro c hc
      apply hlt c
      simp only [poolIds, List.map_cons, List.cons_append, List.mem_cons,
        List.mem_append] at hc ⊢
      tauto
    · simp only [List.length_cons] at hlen ⊢
      omega
  | nil =>
    rw [hp] at hnd hlt hlen
    simp only [List.map_nil, List.nil_append, List.length_nil] at hnd hlt hlen
    by_cases hsz : st.inUse.length < st.maxPoolSize
    · simp only [acquireContext, hp, if_pos hsz]
      refine ⟨?_, ?_, ?_⟩
      · simp only [poolIds, List.map_cons, List.map_nil, List.nil_append]
        refine List.Nodup.cons ?_ hnd
        intro hmem
        exact absurd (hlt _ hmem) (by omega)
      · intro c hc
        simp only [poolIds, List.map_cons, List.map_nil, List.nil_append,
          List.mem_cons] at hc
        show c < st.nextCtx + 1
        rcases hc with rfl | hc
        · omega
        · exact Nat.lt_succ_of_lt (hlt c hc)
      · simp only [List.length_nil, List.length_cons]
        omega
    · simp only [acquireContext, hp, if_neg hsz]
      refine ⟨?_, ?_, ?_⟩
      · simpa [poolIds, hp] using hnd
      · intro c hc
        refine hlt c ?_
        simpa [poolIds, hp] using hc
      · simp only [hp, List.length_nil]
        omega

/-- `releaseContext` preserves pool well-formedness: the released entry
moves from the in-use map to the back of the idle pool. -/
theorem wfPool_release (st : BrowserContextPool) (c now : Nat) (h : WFPool st) :
    WFPool (releaseContext st c now) := by
  obtain ⟨hnd, hlt, hlen⟩ := h
  cases hf : st.inUse.find? (fun i => i.ctx == c) with
  | none =>
    simp only [releaseContext, hf]
    exact ⟨hnd, hlt, hlen⟩
  | some info =>
    have hic : info.ctx = c := by
      have := List.find?_some hf
      simpa using this
    obtain ⟨l1, l2, hsplit, hl1⟩ := find?_decomp _ _ _ hf
    have hndU : (st.inUse.map ContextInfo.ctx).Nodup := by
      simp only [poolIds, List.nodup_append] at hnd
      exact hnd.2.1
    have hl2 : ∀ x ∈ l2, (x.ctx == c) = false := by
      intro x hx
      by_cases hxc : x.ctx = c
      · exfalso
        rw [hsplit] at hndU
        simp only [List.map_append, List.map_cons, List.nodup_append,
          List.nodup_cons] at hndU
        exact hndU.2.1.1 (List.mem_map.mpr ⟨x, hx, by rw [hxc, hic]⟩)
      · simpa using hxc
    have hfilter : st.inUse.filter (fun i => !(i.ctx == c)) = l1 ++ l2 := by
      rw [hsplit, List.filter_append, List.filter_cons]
      have h1 : l1.filter (fun i => !(i.ctx == c)) = l1 :=
        List.filter_eq_self.mpr (fun x hx => by rw [hl1 x hx]; rfl)
      have h2 : l2.filter (fun i => !(i.ctx == c)) = l2 :=
        List.filter_eq_self.mpr (fun x hx => by rw [hl2 x hx]; rfl)
      have hinfo : (!(info.ctx == c)) = false := by simp [hic]
      rw [h1, h2, hinfo]
      simp
    simp only [releaseContext, hf, hfilter]
    have hperm : List.Perm (poolIds st)
        (poolIds { st with
            inUse := l1 ++ l2
            pool := st.pool ++ [{ info with lastUsed := now }] }) := by
      have hmid : List.Perm
          (l1.map ContextInfo.ctx ++ info.ctx :: l2.map ContextInfo.ctx)
          (info.ctx :: (l1.map ContextInfo.ctx ++ l2.map ContextInfo.ctx)) :=
        List.perm_middle
      have hres := List.Perm.append_left (st.pool.map ContextInfo.ctx) hmid
      have heq1 : poolIds st
          = st.pool.map ContextInfo.ctx
            ++ (l1.map ContextInfo.ctx ++ info.ctx :: l2.map ContextInfo.ctx) := by
        simp [poolIds, hsplit]
      have heq2 : poolIds { st with
            inUse := l1 ++ l2
            pool := st.pool ++ [{ info with lastUsed := now }] }
          = st.pool.map ContextInfo.ctx
            ++ (info.ctx :: (l1.map ContextInfo.ctx ++ l2.map ContextInfo.ctx)) := by
        simp [poolIds]
      rw [heq1, heq2]
      exact hres
    refine ⟨hperm.nodup hnd, ?_, ?_⟩
    · intro x hx
      exact hlt x (hperm.mem_iff.mpr hx)
    · have hle : st.inUse.length = l1.length + 1 + l2.length := by
        rw [hsplit]; simp; omega
      simp only [List.length_append, List.length_cons, List.length_nil]
      omega

/-- Idle eviction preserves pool well-formedness: the surviving idle pool
is a sublist of the old one and `inUse` is untouched. -/
theorem wfPool_cleanup (st : BrowserContextPool) (now : Nat) (h : WFPool st) :
    WFPool (cleanupIdleContexts st now) := by
  obtain ⟨hnd, hlt, hlen⟩ := h
  rw [cleanupIdleContexts_eq]
  have hsub : List.Sublist
      (poolIds { st with pool := (st.pool.filter (fun e => !(decide (now - e.lastUsed > st.idleTimeout)))) })
      (poolIds st) := by
    simp only [poolIds]
    exact List.Sublist.append ((List.filter_sublist _).map _) (List.Sublist.refl _)
  refine ⟨hsub.nodup hnd, ?_, ?_⟩
  · intro x hx
    exact hlt x (hsub.subset hx)
  · have hfl := List.length_filter_le
      (fun e => !(decide (now - e.lastUsed > st.idleTimeout))) st.pool
    simp only [gt_iff_lt] at hfl ⊢
    omega

/-- `drain` preserves pool well-formedness (trivially: both collections are
cleared). -/
theorem wfPool_drain (st : BrowserContextPool) (_h : WFPool st) : WFPool (drainPool st) := by
  refine ⟨?_, ?_, ?_⟩
  · simp [poolIds, drainPool]
  · intro c hc
    simp [poolIds, drainPool] at hc
  · simp [drainPool]

/-- Every pool state reachable from an initialized pool is well-formed. -/
theorem wfPool_reach {start st : BrowserContextPool} (h0 : WFPool start)
    (h : PoolReach start st) : WFPool st := by
  induction h with
  | refl => exact h0
  | acquire now _ ih => exact wfPool_acquire _ now ih
  | release c now _ ih => exact wfPool_release _ c now ih
  | cleanup now _ ih => exact wfPool_cleanup _ now ih
  | drain _ ih => exact wfPool_drain _ ih

/-! ### Link-extraction lemmas -/

/-- The accumulator run of `dedupStep` is first-occurrence deduplication:
`seen` is any list with the same members as the accumulator. -/
theorem foldl_dedupStep :
    ∀ (l links seen : List String), (∀ x : String, x ∈ links ↔ x ∈ seen) →
      l.foldl dedupStep links = links ++ dedupFirstAux seen l := by
  intro l
  induction l with
  | nil => intro links seen _; simp [dedupFirstAux]
  | cons x xs ih =>
    intro links seen h
    simp only [List.foldl_cons, dedupFirstAux, dedupStep]
    by_cases hx : x ∈ seen
    · have hc : links.contains x = true := List.elem_iff.mpr ((h x).mpr hx)
      have hs : seen.contains x = true := List.elem_iff.mpr hx
      rw [if_pos hc, if_pos hs]
      exact ih links seen h
    · have hcn : ¬ links.contains x = true :=
        fun hcon => hx ((h x).mp (List.elem_iff.mp hcon))
    
      have hsn : ¬ seen.contains x = true := fun hcon => hx (List.elem_iff.mp hcon)
      rw [if_neg hcn, if_neg hsn, ih (links ++ [x]) (x :: seen) ?_, List.append_assoc]
      · rfl
      · intro y
        simp only [List.mem_append, List.mem_cons, List.mem_singleton, h y]
        tauto

/-- First-occurrence deduplication produces no duplicates (and nothing
already seen). -/
theorem dedupFirstAux_nodup :
    ∀ (l seen : List String),
      (dedupFirstAux seen l).Nodup ∧ ∀ x ∈ dedupFirstAux seen l, x ∉ seen := by
  intro l
  induction l with
  | nil => intro seen; simp [dedupFirstAux]
  | cons x xs ih =>
    intro seen
    simp only [dedupFirstAux]
    by_cases hx : seen.contains x = true
    · rw [if_pos hx]
      exact ih seen
    · rw [if_neg hx]
      obtain ⟨hnd, hmem⟩ := ih (x :: seen)
      refine ⟨List.Nodup.cons ?_ hnd, ?_⟩
      · intro hc
        exact hmem x hc (List.mem_cons_self x seen)
      · intro y hy
        rcases List.mem_cons.mp hy with rfl | hy
        · intro hcon
          exact hx (List.elem_iff.mpr hcon)
        · intro hcon
          exact hmem y hy (List.mem_cons_of_mem _ hcon)

/-- First-occurrence deduplication preserves the original order: the
result is a sublist of the input. -/
theorem dedupFirstAux_sublist :
    ∀ (l seen : List String), List.Sublist (dedupFirstAux seen l) l := by
  intro l
  induction l with
  | nil => intro seen; simp [dedupFirstAux]
  | cons x xs ih =>
    intro seen
    simp only [dedupFirstAux]
    by_cases hx : seen.contains x = true
    · rw [if_pos hx]
      exact List.Sublist.cons x (ih seen)
    · rw [if_neg hx]
      exact List.Sublist.cons₂ x (ih (x :: seen))

/-- Processing one anchor is the `dedupStep` fold of its (zero or one)
resolved href. -/
theorem anchorStep_eq_fold (base : URLm) (attrs : List (String × String))
    (links : List String) :
    anchorStep base attrs links = (anchorRaw base attrs).foldl dedupStep links := by
  cases hh : anchorHref attrs with
  | none => simp [anchorStep, anchorRaw, hh]
  | some v =>
    cases hp : parseURL v with
    | none => simp [anchorStep, anchorRaw, hh, hp]
    | some pu => simp [anchorStep, anchorRaw, hh, hp]

mutual
/-- The traversal of `extractLinks` is the `dedupStep` fold of the raw
resolved hrefs in document order. -/
theorem collectNode_eq_fold (base : URLm) :
    ∀ (n : HNode) (links : List String),
      collectNode base n links = (rawNode base n).foldl dedupStep links
  | HNode.text s, links => by
      simp [collectNode, rawNode]
  | HNode.doc cs, links => by
      simp only [collectNode, rawNode]
      exact collectForest_eq_fold base cs links
  | HNode.elem tag attrs cs, links => by
      simp only [collectNode, rawNode, List.foldl_append]
      rw [collectForest_eq_fold base cs]
      by_cases h : (tag == "a") = true
      · rw [if_pos h, if_pos h, anchorStep_eq_fold]
      · rw [if_neg h, if_neg h]
        rfl

/-- Forest version of `collectNode_eq_fold`. -/
theorem collectForest_eq_fold (base : URLm) :
    ∀ (f : HForest) (links : List String),
      collectForest base f links = (rawForest base f).foldl dedupStep links
  | HForest.nil, links => by
      simp [collectForest, rawForest]
  | HForest.cons c cs, links => by
      simp only [collectForest, rawForest, List.foldl_append]
      rw [collectNode_eq_fold base c links, collectForest_eq_fold base cs]
end

/-! ### Timer lemmas -/

/-- Closed form of two successive resets: the second reset's `Stop` removes
the first timer when it succeeds; the scheduled firing time comes from the
last reset either way, and the generation is 2. -/
theorem doubleReset_eq (T t1 t2 : Nat) (b1 b2 : Bool) :
    doubleReset T t1 t2 b1 b2
      = { timeout := T
          gen := 2
          pending := if b2 then [(t2 + T, 2)] else [(t2 + T, 2), (t1 + T, 1)]
          fired := [] } := by
  cases b1 <;> cases b2 <;> simp [doubleReset, resetInactivityTimer, mkTimer]

/-- Firing a pending timer whose token is still current. -/
theorem fireTimer_cur (st : BIMTimer) (t : Nat × Nat) (hmem : t ∈ st.pending)
    (hgen : t.2 = st.gen) :
    fireTimer st t
      = { st with
          pending := st.pending.erase t
          gen := st.gen + 1
          fired := st.fired ++ [(t.2, true)] } := by
  unfold fireTimer
  rw [if_pos hmem, if_pos (by simp [hgen])]

/-- Firing a pending timer whose token was cancelled by a later reset. -/
theorem fireTimer_stale (st : BIMTimer) (t : Nat × Nat) (hmem : t ∈ st.pending)
    (hgen : ¬ t.2 = st.gen) :
    fireTimer st t
      = { st with
          pending := st.pending.erase t
          fired := st.fired ++ [(t.2, false)] } := by
  unfold fireTimer
  rw [if_pos hmem, if_neg (by simpa using hgen)]

/-- A fired timer function whose generation token was cancelled performs no
shutdown, whether or not it is still pending. -/
theorem fireTimer_stale_no_shutdown (st : BIMTimer) (t : Nat × Nat)
    (hgen : ¬ t.2 = st.gen) :
    shutdownCount (fireTimer st t) = shutdownCount st := by
  by_cases hmem : t ∈ st.pending
  · rw [fireTimer_stale st t hmem hgen]
    simp [shutdownCount, List.filter_append]
  · unfold fireTimer
    rw [if_neg hmem]

/-! ### Release lemmas -/

/-- `releaseContext` on a context with no in-use entry is the identity. -/
theorem releaseContext_not_found (st : BrowserContextPool) (c now : Nat)
    (h : st.inUse.find? (fun i => i.ctx == c) = none) :
    releaseContext st c now = st := by
  simp [releaseContext, h]

/-- `releaseContext` on a context that is not tracked in the in-use map is
the identity. -/
theorem releaseContext_no_op (st : BrowserContextPool) (c now : Nat)
    (h : c ∉ st.inUse.map ContextInfo.ctx) :
    releaseContext st c now = st := by
  apply releaseContext_not_found
  rw [List.find?_eq_none]
  intro x hx hpx
  exact h (List.mem_map.mpr ⟨x, hx, by simpa using hpx⟩)

/-- Releasing the same context a second time is a no-op: the first release
removed its in-use entry (or it never had one). -/
theorem releaseContext_idem (st : BrowserContextPool) (c n1 n2 : Nat) :
    releaseContext (releaseContext st c n1) c n2 = releaseContext st c n1 := by
  cases hf : st.inUse.find? (fun i => i.ctx == c) with
  | none =>
    rw [releaseContext_not_found st c n1 hf, releaseContext_not_found st c n2 hf]
  | some info =>
    apply releaseContext_not_found
    have hinuse : (releaseContext st c n1).inUse
        = st.inUse.filter (fun i => !(i.ctx == c)) := by
      simp [releaseContext, hf]
    rw [hinuse, List.find?_eq_none]
    intro x hx
    have hfx := (List.mem_filter.mp hx).2
    simpa using hfx

/-! ## Claim theorems -/

/-- Claim C1: the claimed cleanup guarantee fails on the code.  Running
`CapturePageSummary` with every step succeeding opens two pages (page 0 in
`CapturePageSummary` itself, page 1 inside `NavigateToURL`) but closes only
page 1 — the deferred `page.Close()` acts on the rebound `page` variable —
so the page the operation opened first is left open on the success path,
and no browser context is ever released (none is acquired per page in the
Go code). -/
theorem c1_capture_cleanup_eval :
    (capturePageSummary
        { newPage1Ok := true, setupOk := true, newPage2Ok := true,
          gotoOk := true, contentOk := true, screenshotOk := true }
        "http://h/" emptyTrace).1 = true ∧
    (capturePageSummary
        { newPage1Ok := true, setupOk := true, newPage2Ok := true,
          gotoOk := true, contentOk := true, screenshotOk := true }
        "http://h/" emptyTrace).2.opened = [0, 1] ∧
    (capturePageSummary
        { newPage1Ok := true, setupOk := true, newPage2Ok := true,
          gotoOk := true, contentOk := true, screenshotOk := true }
        "http://h/" emptyTrace).2.closed = [1] ∧
    0 ∉ (capturePageSummary
        { newPage1Ok := true, setupOk := true, newPage2Ok := true,
          gotoOk := true, contentOk := true, screenshotOk := true }
        "http://h/" emptyTrace).2.closed := by
  refine ⟨rfl, rfl, rfl, ?_⟩
  decide

/-- Claim C2: the recorder is not installed on the navigated page.  In a
fully successful `CapturePageSummary` run, interception is installed on
page 0, but `NavigateToURL` creates and navigates a fresh page 1, so the
one navigated page carries no recorder: the network activity returned in
the summary is not recorded from the page that was navigated. -/
theorem c2_interception_page_eval :
    (capturePageSummary
        { newPage1Ok := true, setupOk := true, newPage2Ok := true,
          gotoOk := true, contentOk := true, screenshotOk := true }
        "http://h/" emptyTrace).2.intercepted = [0] ∧
    (capturePageSummary
        { newPage1Ok := true, setupOk := true, newPage2Ok := true,
          gotoOk := true, contentOk := true, screenshotOk := true }
        "http://h/" emptyTrace).2.navigated = [(1, "http://h/")] ∧
    1 ∉ (capturePageSummary
        { newPage1Ok := true, setupOk := true, newPage2Ok := true,
          gotoOk := true, contentOk := true, screenshotOk := true }
        "http://h/" emptyTrace).2.intercepted := by
  refine ⟨rfl, rfl, ?_⟩
  decide

/-- Claim C8: constructing the pool with `maxPoolSize` 0 does not make
`acquireContext` fail fast — the constructor's `options.maxPoolSize || 5`
silently replaces 0 by the default 5, and an acquire on the fresh pool
creates and returns a context. -/
theorem c8_max_pool_size_zero_eval :
    (mkBrowserContextPool 0 0).maxPoolSize = 5 ∧
    (acquireContext (mkBrowserContextPool 0 0) 7).1 = some 0 ∧
    (acquireContext (mkBrowserContextPool 0 0) 7).2.inUse.length = 1 := by
  decide

/-- Claim C3, counterexample: an intercepted response with content-type
`image/png` and a successfully read body yields a `CapturedNetworkActivity`
whose response body is the PNG bytes — not empty — because the Go response
handler stores the body without any content-type check. -/
theorem c3_counterexample :
    ((handleResponse
        [("http://h/i.png",
          { url := "http://h/i.png", method := "GET", headers := [], body := "" })]
        []
        { url := "http://h/i.png", status := 200,
          headers := [("content-type", "image/png")],
          bodyResult := Except.ok "PNGDATA" }).2.map (fun a => a.response.body))
      = ["PNGDATA"] ∧ "PNGDATA" ≠ "" := by
  refine ⟨rfl, ?_⟩
  decide

/-- Claim C7, counterexample: the Go `SetInactivityTimeout` accepts the
negative duration -5000 without any error and overwrites the configured
timeout with it, contradicting "rejects every negative duration and leaves
the timeout unchanged". -/
theorem c7_counterexample :
    (goSetInactivityTimeout { inactivityTimeout := 60000 } (-5000)).inactivityTimeout
      = -5000 ∧
    ((-5000 : Int) < 0) ∧
    (goSetInactivityTimeout { inactivityTimeout := 60000 } (-5000)).inactivityTimeout
      ≠ 60000 := by
  refine ⟨rfl, by decide, by decide⟩

/-- Claim C4: for every sequence of acquire, release, idle-eviction and
drain operations starting from an initialized pool, no context is in both
the idle pool and the in-use set at the same time, and the in-use set
never grows past the pool's configured `maxPoolSize`. -/
theorem c4_pool_invariant (m i pre n0 : Nat) (st : BrowserContextPool)
    (h : PoolReach (poolStart m i pre n0) st) :
    (∀ c, c ∈ st.pool.map ContextInfo.ctx → c ∉ st.inUse.map ContextInfo.ctx) ∧
    st.inUse.length ≤ st.maxPoolSize := by
  obtain ⟨hnd, _, hlen⟩ := wfPool_reach (wfPool_poolStart m i pre n0) h
  refine ⟨?_, by omega⟩
  intro c hcp hcu
  simp only [poolIds, List.nodup_append] at hnd
  exact hnd.2.2 hcp hcu

/-- Witness for C4 at a concrete reachable state: pool configured with
maximum 3 and two pre-created contexts, after one acquire. -/
theorem c4_pool_invariant_witness :
    (acquireContext (poolStart 3 1000 2 0) 5).2.inUse.length
      ≤ (acquireContext (poolStart 3 1000 2 0) 5).2.maxPoolSize ∧
    ¬ (0 ∈ (acquireContext (poolStart 3 1000 2 0) 5).2.pool.map ContextInfo.ctx ∧
       0 ∈ (acquireContext (poolStart 3 1000 2 0) 5).2.inUse.map ContextInfo.ctx) := by
  have h := c4_pool_invariant 3 1000 2 0 _ (PoolReach.acquire 5 PoolReach.refl)
  exact ⟨h.2, fun hc => h.1 0 hc.1 hc.2⟩

/-- Claim C9: one run of idle eviction removes exactly the idle-pool
entries whose elapsed time since `lastUsed` strictly exceeds `idleTimeout`
(an entry past the timeout is absent afterwards, a more recently used one
survives, order preserved), and the in-use set is neither modified nor even
inspected (the surviving pool does not depend on it). -/
theorem c9_cleanup_idle_spec (st : BrowserContextPool) (now : Nat) :
    (cleanupIdleContexts st now).inUse = st.inUse ∧
    (cleanupIdleContexts st now).pool
      = st.pool.filter (fun e => !(decide (now - e.lastUsed > st.idleTimeout))) ∧
    (∀ e ∈ st.pool, now - e.lastUsed > st.idleTimeout →
      e ∉ (cleanupIdleContexts st now).pool) ∧
    (∀ e ∈ st.pool, ¬ (now - e.lastUsed > st.idleTimeout) →
      e ∈ (cleanupIdleContexts st now).pool) ∧
    (∀ u : List ContextInfo,
      (cleanupIdleContexts { st with inUse := u } now).pool
        = (cleanupIdleContexts st now).pool) := by
  refine ⟨?_, ?_, ?_, ?_, ?_⟩
  · rw [cleanupIdleContexts_eq]
  · rw [cleanupIdleContexts_eq]
  · intro e he hgt
    rw [cleanupIdleContexts_eq]
    simp [List.mem_filter, hgt]
  · intro e he hle
    rw [cleanupIdleContexts_eq]
    simp [List.mem_filter, he, hle]
  · intro u
    rw [cleanupIdleContexts_eq, cleanupIdleContexts_eq]

/-- Witness for C9 on a concrete pool with `idleTimeout` 10 at time 100:
the entry last used at time 0 is evicted, the entry last used at 95
survives. -/
theorem c9_cleanup_idle_witness :
    (⟨0, 0, 0⟩ : ContextInfo) ∉ (cleanupIdleContexts
        { maxPoolSize := 5, idleTimeout := 10,
          pool := [⟨0, 0, 0⟩, ⟨1, 0, 95⟩], inUse := [], nextCtx := 2 } 100).pool ∧
    (⟨1, 0, 95⟩ : ContextInfo) ∈ (cleanupIdleContexts
        { maxPoolSize := 5, idleTimeout := 10,
          pool := [⟨0, 0, 0⟩, ⟨1, 0, 95⟩], inUse := [], nextCtx := 2 } 100).pool := by
  refine ⟨?_, ?_⟩
  · exact (c9_cleanup_idle_spec _ 100).2.2.1 _ (by decide) (by decide)
  · exact (c9_cleanup_idle_spec _ 100).2.2.2.1 _ (by decide) (by decide)

/-- Claim C10: releasing a context that is not tracked as in-use is a
no-op — both collections unchanged, so no duplicate idle entry appears —
and releasing the same context twice is the same as releasing it once. -/
theorem c10_release_spec :
    (∀ (st : BrowserContextPool) (c now : Nat),
      c ∉ st.inUse.map ContextInfo.ctx → releaseContext st c now = st) ∧
    (∀ (st : BrowserContextPool) (c n1 n2 : Nat),
      releaseContext (releaseContext st c n1) c n2 = releaseContext st c n1) :=
  ⟨releaseContext_no_op, releaseContext_idem⟩

/-- Witness for C10 on a concrete pool: context 7 is not in use, so its
release changes nothing; context 1 is in use, and a double release equals
a single release. -/
theorem c10_release_witness :
    releaseContext
        { maxPoolSize := 5, idleTimeout := 10, pool := [⟨0, 0, 0⟩],
          inUse := [⟨1, 0, 0⟩], nextCtx := 2 } 7 9
      = { maxPoolSize := 5, idleTimeout := 10, pool := [⟨0, 0, 0⟩],
          inUse := [⟨1, 0, 0⟩], nextCtx := 2 } ∧
    releaseContext (releaseContext
        { maxPoolSize := 5, idleTimeout := 10, pool := [⟨0, 0, 0⟩],
          inUse := [⟨1, 0, 0⟩], nextCtx := 2 } 1 4) 1 6
      = releaseContext
        { maxPoolSize := 5, idleTimeout := 10, pool := [⟨0, 0, 0⟩],
          inUse := [⟨1, 0, 0⟩], nextCtx := 2 } 1 4 := by
  exact ⟨c10_release_spec.1 _ 7 9 (by decide), c10_release_spec.2 _ 1 4 6⟩

/-- Second reset with a successful `Stop`: the first timer is removed. -/
theorem doubleReset_stop_hit (T t1 t2 : Nat) (b1 : Bool) :
    doubleReset T t1 t2 b1 true
      = { timeout := T, gen := 2, pending := [(t2 + T, 2)], fired := [] } := by
  rw [doubleReset_eq]
  rfl

/-- Second reset whose `Stop` missed (the first timer already expired and
its function is about to run): the stale timer stays pending, invalidated
only by its cancelled token. -/
theorem doubleReset_stop_missed (T t1 t2 : Nat) (b1 : Bool) :
    doubleReset T t1 t2 b1 false
      = { timeout := T, gen := 2, pending := [(t2 + T, 2), (t1 + T, 1)],
          fired := [] } := by
  rw [doubleReset_eq]
  rfl

/-- Firing the sole pending (current) timer performs the shutdown. -/
theorem fireA (T t2 : Nat) :
    fireTimer ⟨T, 2, [(t2 + T, 2)], []⟩ (t2 + T, 2) = ⟨T, 3, [], [(2, true)]⟩ := by
  rw [fireTimer_cur ⟨T, 2, [(t2 + T, 2)], []⟩ (t2 + T, 2)
    (List.mem_cons_self _ _) rfl, List.erase_cons_head]
  rfl

/-- Firing the current timer first, with the stale one still pending. -/
theorem fireB (T t1 t2 : Nat) :
    fireTimer ⟨T, 2, [(t2 + T, 2), (t1 + T, 1)], []⟩ (t2 + T, 2)
      = ⟨T, 3, [(t1 + T, 1)], [(2, true)]⟩ := by
  rw [fireTimer_cur ⟨T, 2, [(t2 + T, 2), (t1 + T, 1)], []⟩ (t2 + T, 2)
    (List.mem_cons_self _ _) rfl, List.erase_cons_head]
  rfl

/-- Firing the stale timer after the shutdown does nothing more. -/
theorem fireC (T t1 : Nat) :
    fireTimer ⟨T, 3, [(t1 + T, 1)], [(2, true)]⟩ (t1 + T, 1)
      = ⟨T, 3, [], [(2, true), (1, false)]⟩ := by
  rw [fireTimer_stale ⟨T, 3, [(t1 + T, 1)], [(2, true)]⟩ (t1 + T, 1)
    (List.mem_cons_self _ _) (show ¬ (1 : Nat) = 3 by decide), List.erase_cons_head]
  rfl

/-- Firing the stale timer before the current one does nothing. -/
theorem fireD (T t1 t2 : Nat) :
    fireTimer ⟨T, 2, [(t2 + T, 2), (t1 + T, 1)], []⟩ (t1 + T, 1)
      = ⟨T, 2, [(t2 + T, 2)], [(1, false)]⟩ := by
  rw [fireTimer_stale ⟨T, 2, [(t2 + T, 2), (t1 + T, 1)], []⟩ (t1 + T, 1)
    (by simp) (show ¬ (1 : Nat) = 2 by decide), List.erase_cons_tail (by simp),
    List.erase_cons_head]
  rfl

/-- Firing the current timer after the stale one performs the shutdown. -/
theorem fireE (T t2 : Nat) :
    fireTimer ⟨T, 2, [(t2 + T, 2)], [(1, false)]⟩ (t2 + T, 2)
      = ⟨T, 3, [], [(1, false), (2, true)]⟩ := by
  rw [fireTimer_cur ⟨T, 2, [(t2 + T, 2)], [(1, false)]⟩ (t2 + T, 2)
    (List.mem_cons_self _ _) rfl, List.erase_cons_head]
  rfl

/-- Claim C6: after two resets in quick succession, exactly one pending
timer carries the current (uncancelled) token and it fires at
`lastResetTime + timeout`; firing all pending timers — in either order,
whether or not the second reset's `Stop` caught the first timer — performs
exactly one shutdown, not two; and a timer whose generation token was
cancelled by a reset never performs a shutdown. -/
theorem c6_timer_reset_spec (T t1 t2 : Nat) (b1 b2 : Bool) :
    (doubleReset T t1 t2 b1 b2).pending.filter
        (fun t => t.2 == (doubleReset T t1 t2 b1 b2).gen) = [(t2 + T, 2)] ∧
    shutdownCount ((doubleReset T t1 t2 b1 b2).pending.foldl fireTimer
        (doubleReset T t1 t2 b1 b2)) = 1 ∧
    shutdownCount ((doubleReset T t1 t2 b1 b2).pending.reverse.foldl fireTimer
        (doubleReset T t1 t2 b1 b2)) = 1 ∧
    (∀ (st : BIMTimer) (t : Nat × Nat), ¬ t.2 = st.gen →
      shutdownCount (fireTimer st t) = shutdownCount st) := by
  refine ⟨?_, ?_, ?_, fun st t h => fireTimer_stale_no_shutdown st t h⟩
  · cases b2
    · rw [doubleReset_stop_missed]
      rfl
    · rw [doubleReset_stop_hit]
      rfl
  · cases b2
    · rw [doubleReset_stop_missed]
      show shutdownCount (fireTimer (fireTimer ⟨T, 2, [(t2 + T, 2), (t1 + T, 1)], []⟩
        (t2 + T, 2)) (t1 + T, 1)) = 1
      rw [fireB T t1 t2, fireC T t1]
      rfl
    · rw [doubleReset_stop_hit]
      show shutdownCount (fireTimer ⟨T, 2, [(t2 + T, 2)], []⟩ (t2 + T, 2)) = 1
      rw [fireA T t2]
      rfl
  · cases b2
    · rw [doubleReset_stop_missed]
      show shutdownCount (fireTimer (fireTimer ⟨T, 2, [(t2 + T, 2), (t1 + T, 1)], []⟩
        (t1 + T, 1)) (t2 + T, 2)) = 1
      rw [fireD T t1 t2, fireE T t2]
      rfl
    · rw [doubleReset_stop_hit]
      show shutdownCount (fireTimer ⟨T, 2, [(t2 + T, 2)], []⟩ (t2 + T, 2)) = 1
      rw [fireA T t2]
      rfl

/-- Witness for C6: resets at times 0 and 3 with timeout 10 (second `Stop`
missing), firing everything gives exactly one shutdown; and a concrete
stale timer performs none. -/
theorem c6_timer_reset_witness :
    shutdownCount ((doubleReset 10 0 3 true false).pending.foldl fireTimer
        (doubleReset 10 0 3 true false)) = 1 ∧
    shutdownCount (fireTimer
        { timeout := 10, gen := 5, pending := [(3, 1)], fired := [] } (3, 1))
      = shutdownCount { timeout := 10, gen := 5, pending := [(3, 1)], fired := [] } := by
  refine ⟨(c6_timer_reset_spec 10 0 3 true false).2.1, ?_⟩
  exact (c6_timer_reset_spec 10 0 3 true false).2.2.2 _ _ (by decide)

/-- Claim C5: link extraction resolves every anchor's first `href` against
the base URL and collects the results in document order with
first-occurrence deduplication by resolved value — the output is exactly
the first-occurrence deduplication of the raw resolved href list, has no
duplicates, and is an order-preserving sublist of it — and on the spec's
example page with base `http://h/` it yields exactly
`[http://h/link1, https://example.com/link2, http://h/link3.html]`. -/
theorem c5_extract_links_spec :
    extractLinks exampleDoc "http://h/"
      = some ["http://h/link1", "https://example.com/link2", "http://h/link3.html"] ∧
    (∀ (base : URLm) (docRoot : HNode),
      collectNode base docRoot [] = dedupFirst (rawNode base docRoot)) ∧
    (∀ l : List String, (dedupFirst l).Nodup) ∧
    (∀ l : List String, List.Sublist (dedupFirst l) l) := by
  refine ⟨?_, ?_, ?_, ?_⟩
  · decide
  · intro base docRoot
    rw [collectNode_eq_fold base docRoot []]
    unfold dedupFirst
    rw [foldl_dedupStep (rawNode base docRoot) [] [] (fun x => Iff.rfl)]
    rfl
  · intro l
    exact (dedupFirstAux_nodup l []).1
  · intro l
    exact dedupFirstAux_sublist l []

/-- Claim C3, amended: the Go recorder pairs each matched response with its
pending request and stores the body unconditionally whenever the read
succeeds, regardless of content-type, and records a read failure as an
empty body (never failing the navigation); the content-type gating — empty
body for non-text-like types such as `image/png`, placeholder error string
on read failure — is implemented in the JS
`NetworkRequestCapture.safelyGetResponseBody`, not in the Go recorder. -/
theorem c3_amended_spec :
    (∀ (req : CapturedRequest) (u : String) (s : Nat)
        (hs : List (String × String)) (b : String),
      (handleResponse [(u, req)] []
          { url := u, status := s, headers := hs, bodyResult := Except.ok b }).2
        = [{ request := req, response := { status := s, headers := hs, body := b } }]) ∧
    (∀ (req : CapturedRequest) (u : String) (s : Nat)
        (hs : List (String × String)) (e : String),
      (handleResponse [(u, req)] []
          { url := u, status := s, headers := hs, bodyResult := Except.error e }).2
        = [{ request := req, response := { status := s, headers := hs, body := "" } }]) ∧
    (∀ (ct b : String), isTextLike ct = false →
      safelyGetResponseBody ct (Except.ok b) = "") ∧
    (∀ (ct b : String), isTextLike ct = true →
      safelyGetResponseBody ct (Except.ok b) = b) ∧
    (∀ (ct e : String), isTextLike ct = true →
      safelyGetResponseBody ct (Except.error e)
        = "[Error getting response body: " ++ e ++ "]") := by
  refine ⟨?_, ?_, ?_, ?_, ?_⟩
  · intro req u s hs b
    unfold handleResponse
    rw [List.find?_cons_of_pos _ (by simp)]
    rfl
  · intro req u s hs e
    unfold handleResponse
    rw [List.find?_cons_of_pos _ (by simp)]
    rfl
  · intro ct b h
    unfold safelyGetResponseBody
    rw [if_neg (by simp [h])]
  · intro ct b h
    unfold safelyGetResponseBody
    rw [if_pos h]
  · intro ct e h
    unfold safelyGetResponseBody
    rw [if_pos h]

/-- Witness for C3 at concrete inputs: `image/png` gives an empty JS body,
`text/html` bodies pass through, a JSON read failure gives the
placeholder, and the Go handler stores the body as read. -/
theorem c3_amended_witness :
    safelyGetResponseBody "image/png" (Except.ok "PNG") = "" ∧
    safelyGetResponseBody "text/html; charset=utf-8" (Except.ok "<html>") = "<html>" ∧
    safelyGetResponseBody "application/json" (Except.error "boom")
      = "[Error getting response body: boom]" ∧
    (handleResponse [("u", { url := "u", method := "GET", headers := [], body := "" })] []
        { url := "u", status := 200, headers := [], bodyResult := Except.ok "B" }).2
      = [{ request := { url := "u", method := "GET", headers := [], body := "" },
           response := { status := 200, headers := [], body := "B" } }] := by
  refine ⟨?_, ?_, ?_, ?_⟩
  · exact c3_amended_spec.2.2.1 "image/png" "PNG" (by decide)
  · exact c3_amended_spec.2.2.2.1 "text/html; charset=utf-8" "<html>" (by decide)
  · exact c3_amended_spec.2.2.2.2 "application/json" "boom" (by decide)
  · exact c3_amended_spec.1 _ "u" 200 [] "B"

/-- Claim C7, amended: only the JS `setInactivityTimeout` rejects negative
durations (throwing before touching the stored timeout) and stores
non-negative ones; the Go `SetInactivityTimeout` performs no validation
and stores any duration, negative ones included, without error. -/
theorem c7_amended_spec :
    (∀ (bim : GoBrowserInstanceManager) (d : Int),
      goSetInactivityTimeout bim d = { inactivityTimeout := d }) ∧
    (∀ (m : JsBrowserInstanceManager) (d : Int), d < 0 →
      jsSetInactivityTimeout m d
        = Except.error "Inactivity timeout must be a non-negative number.") ∧
    (∀ (m : JsBrowserInstanceManager) (d : Int), 0 ≤ d →
      jsSetInactivityTimeout m d = Except.ok { inactivityTimeout := d }) := by
  refine ⟨?_, ?_, ?_⟩
  · intro bim d
    rfl
  · intro m d hd
    unfold jsSetInactivityTimeout
    rw [if_pos hd]
  · intro m d hd
    unfold jsSetInactivityTimeout
    rw [if_neg (by omega)]

/-- Witness for C7 at concrete durations: the Go setter stores -7 without
error, the JS setter rejects -7 and accepts 8. -/
theorem c7_amended_witness :
    goSetInactivityTimeout { inactivityTimeout := 1 } (-7) = { inactivityTimeout := -7 } ∧
    jsSetInactivityTimeout { inactivityTimeout := 1 } (-7)
      = Except.error "Inactivity timeout must be a non-negative number." ∧
    jsSetInactivityTimeout { inactivityTimeout := 1 } 8
      = Except.ok { inactivityTimeout := 8 } := by
  exact ⟨c7_amended_spec.1 _ _, c7_amended_spec.2.1 _ _ (by decide),
    c7_amended_spec.2.2 _ _ (by decide)⟩
